import Mathlib

/-!
Verification development for the draco bridge in src/pydraco.hpp
(dvidutils).  The two functions under study are
encode_faces_to_drc_bytes and decode_drc_bytes_to_faces.

Modelling conventions:
* A 32-bit float is modelled by its bit pattern (a Nat).  The bridge only
  copies float values and compares them bit-for-bit during deduplication;
  it performs no floating-point arithmetic.
* Machine integer widths do not matter at the modelled scales, so sizes
  and face indices are Nat.
* The external draco codec (Encoder/Decoder) is an opaque collaborator:
  it is a parameter of the bridge functions, given as a record of the
  three entry points the bridge calls.  The Mesh deduplication routines
  of the codec library are modelled concretely from the spec.
* The hidden global int DRACO_SPEED is threaded explicitly as a
  ModuleState value.
* Each bridge function also returns the trace of collaborator /
  pipeline events it performed, so that claims about call order
  ("deduplicate once, after building and before encoding") and about
  short-circuits ("without invoking the codec") are statable.
-/

namespace Pydraco

/-- Bit pattern of a 32-bit float (the bridge does no float arithmetic). -/
abbrev F32 := Nat

/-- One row of a float array: an (X, Y, Z) triple. -/
abbrev Vec3 := F32 × F32 × F32

/-- One row of the faces array: three uint32 vertex/point indices. -/
abbrev Tri := Nat × Nat × Nat

/-- An opaque byte sequence (py::bytes / draco buffer contents). -/
abbrev Bytes := List Nat

/-- Model of draco::PointAttribute: a compact value array together with
the point-index to value-index mapping table.  An identity mapping is
materialised as the list List.range num_points. -/
structure PointAttribute where
  values : List Vec3
  indexMap : List Nat
deriving DecidableEq

/-- Resolution of a point index through an attribute: mapped_index
followed by ConvertValue<float,3>; none models a failed conversion. -/
def PointAttribute.resolve (att : PointAttribute) (p : Nat) : Option Vec3 :=
  (att.indexMap[p]?).bind (fun vi => att.values[vi]?)

/-- Model of draco::Mesh: a point count, the (optional) named POSITION
and NORMAL attributes, and the face list of point-index triples. -/
structure Mesh where
  num_points : Nat
  pos : Option PointAttribute
  norm : Option PointAttribute
  faces : List Tri
deriving DecidableEq

/-- Index of the first occurrence of an element in a list (0 when absent
at the end of the search, mirroring an indexOf convention; only ever
used on members). -/
def idxOf {α : Type} [DecidableEq α] (a : α) : List α → Nat
  | [] => 0
  | b :: l => if a = b then 0 else idxOf a l + 1

/-- Modelled from the spec: value deduplication for one attribute
(draco's Mesh::DeduplicateAttributeValues, an external codec-library
routine).  Bit-identical values in the backing value array are merged
into a single slot and the index-mapping table is rewritten so that
every point still resolves to the same value. -/
def dedupValuesAtt (att : PointAttribute) : PointAttribute :=
  let values' := att.values.dedup
  { values := values'
  , indexMap := att.indexMap.map (fun vi =>
      match att.values[vi]? with
      | some w => idxOf w values'
      | none => vi) }

/-- Modelled from the spec: Mesh::DeduplicateAttributeValues applied to
every attribute carried by the mesh; the point count and the faces are
unaffected. -/
def Mesh.deduplicateAttributeValues (m : Mesh) : Mesh :=
  { m with pos := m.pos.map dedupValuesAtt, norm := m.norm.map dedupValuesAtt }

/-- The combination of attribute values carried by one point (position
value, normal value), used to decide which points are mergeable. -/
def Mesh.pointCombo (m : Mesh) (p : Nat) : Option Vec3 × Option Vec3 :=
  (m.pos.bind (fun a => a.resolve p), m.norm.bind (fun a => a.resolve p))

/-- Modelled from the spec: Mesh::DeduplicatePointIds (external
codec-library routine).  Points whose attribute-value combinations are
identical are merged into a single point identifier; the attributes are
rebuilt over the merged points with an identity mapping, and the face
references are rewritten through the point remapping. -/
def Mesh.deduplicatePointIds (m : Mesh) : Mesh :=
  { num_points := ((List.range m.num_points).map m.pointCombo).dedup.length
  , pos := m.pos.map (fun _ =>
      { values := ((List.range m.num_points).map m.pointCombo).dedup.map
          (fun c => c.1.getD (0, 0, 0))
      , indexMap :=
          List.range ((List.range m.num_points).map m.pointCombo).dedup.length })
  , norm := m.norm.map (fun _ =>
      { values := ((List.range m.num_points).map m.pointCombo).dedup.map
          (fun c => c.2.getD (0, 0, 0))
      , indexMap :=
          List.range ((List.range m.num_points).map m.pointCombo).dedup.length })
  , faces := m.faces.map (fun t =>
      (idxOf (m.pointCombo t.1) ((List.range m.num_points).map m.pointCombo).dedup,
       idxOf (m.pointCombo t.2.1) ((List.range m.num_points).map m.pointCombo).dedup,
       idxOf (m.pointCombo t.2.2) ((List.range m.num_points).map m.pointCombo).dedup)) }

/-- Geometry kind reported by the codec for an encoded buffer. -/
inductive GeometryType where
  | invalid
  | pointCloud
  | triangularMesh
deriving DecidableEq

/-- Status object returned by the codec (draco::Status); only ok() is
ever observable through the bridge. -/
structure CodecStatus where
  ok : Bool
deriving DecidableEq

/-- The external draco codec, as the three entry points the bridge
calls.  EncodeMeshToBuffer receives the two speed options and the mesh
and yields its status together with the buffer contents it wrote;
DecodeMeshFromBuffer yields none when no mesh was produced (a null
unique_ptr). -/
structure Codec where
  encodeMeshToBuffer : Int → Int → Mesh → CodecStatus × Bytes
  getEncodedGeometryType : Bytes → GeometryType
  decodeMeshFromBuffer : Bytes → Option Mesh

/-- Global state of the module: int DRACO_SPEED = 0 (pydraco.hpp line
26), read by encode_faces_to_drc_bytes. -/
structure ModuleState where
  DRACO_SPEED : Int
deriving DecidableEq

/-- Initial module state: DRACO_SPEED = 0, best compression. -/
def initModuleState : ModuleState := { DRACO_SPEED := 0 }

/-- Errors thrown by the bridge (std::runtime_error messages), plus the
outcome of dereferencing a null decoded mesh. -/
inductive Err where
  | faceIndexOutOfRange
  | normalsSizeMismatch
  | notAMesh
  | nullDecodedMesh
  | noVertices
  | vertexReadError (i : Nat)
  | normalReadError (i : Nat)
deriving DecidableEq

/-- Pipeline / collaborator events, recorded in call order. -/
inductive Event where
  | buildMesh
  | dedupAttributeValues
  | dedupPointIds
  | codecEncode (speed1 speed2 : Int)
  | codecGetGeometryType
  | codecDecodeMesh
  | extract
deriving DecidableEq

/-- Value of xt::amax over the faces array, as the uint32 it is: the
maximum face index occurring in any of the three columns (0 for an
empty array; the source only evaluates it on non-empty faces).  The
source then stores this uint32 into an int, a truncating conversion
modelled separately by wrapInt32. -/
def maxFaceIndex : List Tri → Nat
  | [] => 0
  | t :: r => max (max t.1 (max t.2.1 t.2.2)) (maxFaceIndex r)

/-- Reduction of an integer into the value range of a 32-bit two's
complement int, as performed by the uint32-to-int conversion at
pydraco.hpp line 52 and by int overflow in the max_vertex+1 addition at
line 53 (signed overflow is undefined behaviour in C++; two's-complement
wrapping is what the compiled code does). -/
def wrapInt32 (z : Int) : Int :=
  (z + 2 ^ 31) % 2 ^ 32 - 2 ^ 31

/-- Construction of the draco Mesh from the validated arrays
(pydraco.hpp lines 63-133): point count = vertex count, a POSITION
attribute loaded in vertex order with an identity mapping, a NORMAL
attribute likewise when normal_count > 0, and the faces copied in
order. -/
def buildMesh (vertices normals : List Vec3) (faces : List Tri) : Mesh :=
  { num_points := vertices.length
  , pos := some { values := vertices, indexMap := List.range vertices.length }
  , norm :=
      if normals.length > 0 then
        some { values := normals, indexMap := List.range normals.length }
      else
        none
  , faces := faces }

/-- The result triple of decode_drc_bytes_to_faces.  Each list is one
array with three columns; the row type Vec3 / Tri fixes the column
count. -/
structure DecodeResult where
  vertices : List Vec3
  normals : List Vec3
  faces : List Tri
deriving DecidableEq

/-- Model of encode_faces_to_drc_bytes (pydraco.hpp lines 35-144).
Returns the function result together with the trace of pipeline events.
The int declaration of max_vertex truncates the uint32 amax value (line
52), and max_vertex+1 overflows at INT_MAX, both modelled by wrapInt32;
vertex_count itself is a 64-bit npy_intp and is not truncated.  The
codec status returned by EncodeMeshToBuffer is discarded, exactly as in
the source (line 141). -/
def encode_faces_to_drc_bytes (codec : Codec) (st : ModuleState)
    (vertices normals : List Vec3) (faces : List Tri) :
    Except Err Bytes × List Event :=
  let vertex_count := vertices.length
  let normal_count := normals.length
  let face_count := faces.length
  if face_count = 0 then
    (Except.ok [], [])
  else
    let max_vertex := wrapInt32 (maxFaceIndex faces)
    if (vertex_count : Int) < wrapInt32 (max_vertex + 1) then
      (Except.error Err.faceIndexOutOfRange, [])
    else if normal_count > 0 ∧ normal_count ≠ vertex_count then
      (Except.error Err.normalsSizeMismatch, [])
    else
      let mesh := buildMesh vertices normals faces
      let mesh1 := mesh.deduplicateAttributeValues
      let mesh2 := mesh1.deduplicatePointIds
      let buf := (codec.encodeMeshToBuffer st.DRACO_SPEED st.DRACO_SPEED mesh2).2
      (Except.ok buf,
       [Event.buildMesh, Event.dedupAttributeValues, Event.dedupPointIds,
        Event.codecEncode st.DRACO_SPEED st.DRACO_SPEED])

/-- Extraction loop body: read points s, s+1, ..., s+n-1 from an
attribute, resolving each point index through the mapping table, and
fail with the offending index on a failed conversion. -/
def extractPointsAux (att : PointAttribute) (mkErr : Nat → Err) :
    Nat → Nat → Except Err (List Vec3)
  | _, 0 => Except.ok []
  | s, n + 1 =>
    match att.resolve s with
    | none => Except.error (mkErr s)
    | some v =>
      match extractPointsAux att mkErr (s + 1) n with
      | Except.error e => Except.error e
      | Except.ok rest => Except.ok (v :: rest)

/-- Extraction of count rows from an attribute, iterating point indices
0, ..., count-1 (the for-loops of pydraco.hpp lines 213-224 and
250-261). -/
def extractPoints (att : PointAttribute) (mkErr : Nat → Err) (count : Nat) :
    Except Err (List Vec3) :=
  extractPointsAux att mkErr 0 count

/-- Extraction section of decode_drc_bytes_to_faces (pydraco.hpp lines
200-277), applied to the already deduplicated mesh: extract the
vertices over [0, point count), then the normals over the full point
count when a NORMAL attribute is present (and a zero-length normal
array otherwise), then the faces in encoded order. -/
def decodeCore (mesh : Mesh) : Except Err DecodeResult :=
  match mesh.pos with
  | none => Except.error Err.noVertices
  | some vertex_att =>
    match extractPoints vertex_att Err.vertexReadError mesh.num_points with
    | Except.error e => Except.error e
    | Except.ok vertices =>
      match mesh.norm with
      | none =>
        Except.ok { vertices := vertices, normals := [], faces := mesh.faces }
      | some normal_att =>
        match extractPoints normal_att Err.normalReadError mesh.num_points with
        | Except.error e => Except.error e
        | Except.ok normals =>
          Except.ok { vertices := vertices, normals := normals, faces := mesh.faces }

/-- Model of decode_drc_bytes_to_faces (pydraco.hpp lines 154-278).
Returns the result triple together with the trace of pipeline events.
An empty buffer short-circuits to empty arrays; a non-mesh geometry kind
throws; the decoded mesh is deduplicated and then the three arrays are
extracted by decodeCore. -/
def decode_drc_bytes_to_faces (codec : Codec) (drc_bytes : Bytes) :
    Except Err DecodeResult × List Event :=
  if drc_bytes.length = 0 then
    (Except.ok { vertices := [], normals := [], faces := [] }, [])
  else
    let geometry_type := codec.getEncodedGeometryType drc_bytes
    if geometry_type ≠ GeometryType.triangularMesh then
      (Except.error Err.notAMesh, [Event.codecGetGeometryType])
    else
      match codec.decodeMeshFromBuffer drc_bytes with
      | none =>
        (Except.error Err.nullDecodedMesh,
         [Event.codecGetGeometryType, Event.codecDecodeMesh])
      | some mesh0 =>
        let mesh1 := mesh0.deduplicateAttributeValues
        let mesh := mesh1.deduplicatePointIds
        (decodeCore mesh,
         [Event.codecGetGeometryType, Event.codecDecodeMesh,
          Event.dedupAttributeValues, Event.dedupPointIds,
          Event.extract])

/-! Concrete codec instances used to instantiate theorems with
hypotheses on concrete inputs. -/

/-- A codec that encodes every mesh to the one-byte buffer [1] and never
produces a decoded mesh. -/
def trivialCodec : Codec :=
  { encodeMeshToBuffer := fun _ _ _ => ({ ok := true }, [1])
  , getEncodedGeometryType := fun _ => GeometryType.triangularMesh
  , decodeMeshFromBuffer := fun _ => none }

/-- A codec that classifies every buffer as a point cloud. -/
def pointCloudCodec : Codec :=
  { encodeMeshToBuffer := fun _ _ _ => ({ ok := true }, [1])
  , getEncodedGeometryType := fun _ => GeometryType.pointCloud
  , decodeMeshFromBuffer := fun _ => none }

/-! General facts about the embedded operations, shared by the claim
theorems below. -/

theorem encode_reaches_codec (codec : Codec) (st : ModuleState)
    (v n : List Vec3) (f : List Tri)
    (hf : f.length ≠ 0)
    (hmax : maxFaceIndex f < v.length)
    (hn : ¬(n.length > 0 ∧ n.length ≠ v.length)) :
    encode_faces_to_drc_bytes codec st v n f =
      (Except.ok (codec.encodeMeshToBuffer st.DRACO_SPEED st.DRACO_SPEED
          (((buildMesh v n f).deduplicateAttributeValues).deduplicatePointIds)).2,
       [Event.buildMesh, Event.dedupAttributeValues, Event.dedupPointIds,
        Event.codecEncode st.DRACO_SPEED st.DRACO_SPEED]) := by
  have h1 : ¬((v.length : Int) < wrapInt32 (wrapInt32 (maxFaceIndex f) + 1)) := by
    unfold wrapInt32
    omega
  simp [encode_faces_to_drc_bytes, hf, h1, hn]

theorem decode_after_mesh (codec : Codec) (b : Bytes) (m0 : Mesh)
    (hb : b ≠ [])
    (hgeom : codec.getEncodedGeometryType b = GeometryType.triangularMesh)
    (hdec : codec.decodeMeshFromBuffer b = some m0) :
    decode_drc_bytes_to_faces codec b =
      (decodeCore ((m0.deduplicateAttributeValues).deduplicatePointIds),
       [Event.codecGetGeometryType, Event.codecDecodeMesh,
        Event.dedupAttributeValues, Event.dedupPointIds,
        Event.extract]) := by
  have hlen : ¬(b.length = 0) := by simpa [List.length_eq_zero] using hb
  simp [decode_drc_bytes_to_faces, hlen, hgeom, hdec]

/-- C2: the validator misses out-of-range face indices at and above
INT_MAX.  The uint32 maximum face index 2^31 (here 2147483648) is
stored into int max_vertex (pydraco.hpp line 52), wrapping to -2^31,
so the line-53 check vertex_count < max_vertex+1 is false and no
validation error is raised: with a single vertex the invariant
"maximum face index < vertex count" is violated, yet encode raises
nothing, builds a mesh and invokes the codec, returning success. -/
theorem validation_misses_wrapped_face_index :
    ([(0, 0, 0)] : List Vec3).length ≤ maxFaceIndex [(2147483648, 0, 0)] ∧
    (encode_faces_to_drc_bytes trivialCodec initModuleState
       [(0, 0, 0)] [] [(2147483648, 0, 0)]).1 = Except.ok [1] ∧
    Event.buildMesh ∈
      (encode_faces_to_drc_bytes trivialCodec initModuleState
        [(0, 0, 0)] [] [(2147483648, 0, 0)]).2 :=
  ⟨by decide, rfl, by decide⟩

/-- C3: with an empty face array, encode returns the empty byte
sequence, and its (empty) event trace shows that no mesh was built and
the codec was never invoked. -/
theorem encode_empty_faces (codec : Codec) (st : ModuleState)
    (v n : List Vec3) :
    encode_faces_to_drc_bytes codec st v n [] = (Except.ok [], []) ∧
    Event.buildMesh ∉ (encode_faces_to_drc_bytes codec st v n []).2 ∧
    ∀ s1 s2 : Int,
      Event.codecEncode s1 s2 ∉ (encode_faces_to_drc_bytes codec st v n []).2 := by
  refine ⟨rfl, ?_, ?_⟩ <;> simp [encode_faces_to_drc_bytes]

/-- C4: decoding the empty buffer returns empty vertex, normal and face
arrays (the 3-column shape is fixed by the row types Vec3 and Tri), and
the empty event trace shows the codec was never invoked. -/
theorem decode_empty_buffer (codec : Codec) :
    decode_drc_bytes_to_faces codec [] =
      (Except.ok { vertices := [], normals := [], faces := [] }, []) ∧
    Event.codecGetGeometryType ∉ (decode_drc_bytes_to_faces codec []).2 ∧
    Event.codecDecodeMesh ∉ (decode_drc_bytes_to_faces codec []).2 := by
  refine ⟨rfl, ?_, ?_⟩ <;> simp [decode_drc_bytes_to_faces]

/-- C5: decoding a non-empty buffer whose geometry kind is not a
triangular mesh fails with the unsupported-geometry error, with no
result produced and nothing but the geometry-type query in the trace. -/
theorem decode_non_mesh_geometry (codec : Codec) (b : Bytes)
    (hne : b ≠ [])
    (hkind : codec.getEncodedGeometryType b ≠ GeometryType.triangularMesh) :
    decode_drc_bytes_to_faces codec b =
      (Except.error Err.notAMesh, [Event.codecGetGeometryType]) := by
  have hlen : ¬(b.length = 0) := by simpa [List.length_eq_zero] using hne
  simp [decode_drc_bytes_to_faces, hlen, hkind]

/-- Witness for C5: a point-cloud buffer is rejected. -/
theorem decode_non_mesh_geometry_witness :
    (([0] : Bytes) ≠ [] ∧
     pointCloudCodec.getEncodedGeometryType [0] ≠ GeometryType.triangularMesh) ∧
    decode_drc_bytes_to_faces pointCloudCodec [0] =
      (Except.error Err.notAMesh, [Event.codecGetGeometryType]) :=
  ⟨⟨by decide, by decide⟩,
   decode_non_mesh_geometry pointCloudCodec [0] (by decide) (by decide)⟩

/-- C10: the empty-faces short-circuit runs before validation: even when
the normal count is neither 0 nor the vertex count, encode with an empty
face array returns the empty byte sequence and raises no error. -/
theorem encode_empty_faces_before_validation (codec : Codec)
    (st : ModuleState) (v n : List Vec3)
    (hn0 : n.length ≠ 0) (hnv : n.length ≠ v.length) :
    encode_faces_to_drc_bytes codec st v n [] = (Except.ok [], []) :=
  rfl

/-- Witness for C10: one vertex with two normals, an invalid
combination, still yields the empty buffer with no error. -/
theorem encode_empty_faces_before_validation_witness :
    (([(1, 1, 1), (2, 2, 2)] : List Vec3).length ≠ 0 ∧
     ([(1, 1, 1), (2, 2, 2)] : List Vec3).length ≠
       ([(0, 0, 0)] : List Vec3).length) ∧
    encode_faces_to_drc_bytes trivialCodec initModuleState
        [(0, 0, 0)] [(1, 1, 1), (2, 2, 2)] [] = (Except.ok [], []) :=
  ⟨⟨by decide, by decide⟩,
   encode_empty_faces_before_validation trivialCodec initModuleState
     [(0, 0, 0)] [(1, 1, 1), (2, 2, 2)] (by decide) (by decide)⟩

/-- Number of occurrences of an event in a trace. -/
def countEvent (e : Event) (tr : List Event) : Nat :=
  (tr.filter (fun x => x = e)).length

/-- A codec whose decode entry point always yields one fixed one-point
mesh. -/
def meshCodec : Codec :=
  { encodeMeshToBuffer := fun _ _ _ => ({ ok := true }, [1])
  , getEncodedGeometryType := fun _ => GeometryType.triangularMesh
  , decodeMeshFromBuffer := fun _ => some
      { num_points := 1
      , pos := some { values := [(0, 0, 0)], indexMap := [0] }
      , norm := none
      , faces := [(0, 0, 0)] } }

/-- C7: on an encode call that constructs a mesh, attribute-value and
point-id deduplication each appear exactly once in the trace, after the
mesh build and before the codec call; on a decode call that reaches the
codec and obtains a mesh, each appears exactly once, after the codec
decode and before extraction. -/
theorem dedup_invoked_once (codec : Codec) (st : ModuleState)
    (v n : List Vec3) (f : List Tri) (b : Bytes) (m0 : Mesh)
    (hf : f ≠ []) (hmax : maxFaceIndex f < v.length)
    (hn : n.length = 0 ∨ n.length = v.length)
    (hb : b ≠ [])
    (hgeom : codec.getEncodedGeometryType b = GeometryType.triangularMesh)
    (hdec : codec.decodeMeshFromBuffer b = some m0) :
    (encode_faces_to_drc_bytes codec st v n f).2 =
      [Event.buildMesh, Event.dedupAttributeValues, Event.dedupPointIds,
       Event.codecEncode st.DRACO_SPEED st.DRACO_SPEED] ∧
    countEvent Event.dedupAttributeValues
      (encode_faces_to_drc_bytes codec st v n f).2 = 1 ∧
    countEvent Event.dedupPointIds
      (encode_faces_to_drc_bytes codec st v n f).2 = 1 ∧
    (decode_drc_bytes_to_faces codec b).2 =
      [Event.codecGetGeometryType, Event.codecDecodeMesh,
       Event.dedupAttributeValues, Event.dedupPointIds, Event.extract] ∧
    countEvent Event.dedupAttributeValues
      (decode_drc_bytes_to_faces codec b).2 = 1 ∧
    countEvent Event.dedupPointIds
      (decode_drc_bytes_to_faces codec b).2 = 1 := by
  have hflen : f.length ≠ 0 := by simpa [List.length_eq_zero] using hf
  have hn' : ¬(n.length > 0 ∧ n.length ≠ v.length) := by
    rcases hn with h | h <;> omega
  have henc := encode_reaches_codec codec st v n f hflen hmax hn'
  have hdecq := decode_after_mesh codec b m0 hb hgeom hdec
  rw [henc, hdecq]
  exact ⟨rfl, rfl, rfl, rfl, rfl, rfl⟩

/-- Witness for C7 at a concrete encode input and a concrete decoded
buffer. -/
theorem dedup_invoked_once_witness :
    (([(0, 0, 0)] : List Tri) ≠ [] ∧
     maxFaceIndex [(0, 0, 0)] < ([(0, 0, 0)] : List Vec3).length ∧
     (([] : List Vec3).length = 0 ∨
      ([] : List Vec3).length = ([(0, 0, 0)] : List Vec3).length) ∧
     ([1] : Bytes) ≠ [] ∧
     meshCodec.getEncodedGeometryType [1] = GeometryType.triangularMesh ∧
     meshCodec.decodeMeshFromBuffer [1] = some
       { num_points := 1
       , pos := some { values := [(0, 0, 0)], indexMap := [0] }
       , norm := none
       , faces := [(0, 0, 0)] }) ∧
    ((encode_faces_to_drc_bytes meshCodec initModuleState
        [(0, 0, 0)] [] [(0, 0, 0)]).2 =
      [Event.buildMesh, Event.dedupAttributeValues, Event.dedupPointIds,
       Event.codecEncode 0 0] ∧
     countEvent Event.dedupAttributeValues
       (decode_drc_bytes_to_faces meshCodec [1]).2 = 1) :=
  ⟨⟨by decide, by decide, by decide, by decide, rfl, rfl⟩,
   (dedup_invoked_once meshCodec initModuleState [(0, 0, 0)] [] [(0, 0, 0)]
      [1]
      { num_points := 1
      , pos := some { values := [(0, 0, 0)], indexMap := [0] }
      , norm := none
      , faces := [(0, 0, 0)] }
      (by decide) (by decide) (by decide) (by decide) rfl rfl).1,
   (dedup_invoked_once meshCodec initModuleState [(0, 0, 0)] [] [(0, 0, 0)]
      [1]
      { num_points := 1
      , pos := some { values := [(0, 0, 0)], indexMap := [0] }
      , norm := none
      , faces := [(0, 0, 0)] }
      (by decide) (by decide) (by decide) (by decide) rfl rfl).2.2.2.2.1⟩

/-- C8 counterexample: the speed setting is not a per-call parameter of
encode.  The per-call arguments of encode_faces_to_drc_bytes are only
(vertices, normals, faces); here two calls with identical per-call
arguments behave differently because the global DRACO_SPEED state
differs, so no per-call argument determines the speed options. -/
theorem speed_not_per_call_counterexample :
    (encode_faces_to_drc_bytes trivialCodec { DRACO_SPEED := 0 }
       [(0, 0, 0)] [] [(0, 0, 0)]).2 ≠
    (encode_faces_to_drc_bytes trivialCodec { DRACO_SPEED := 1 }
       [(0, 0, 0)] [] [(0, 0, 0)]).2 := by
  decide

/-- C8 amended: the speed/quality setting is the process-global integer
DRACO_SPEED (initially 0, favoring compression ratio over speed), not a
per-call parameter; on every encode call reaching the codec it is read
from the global state and applied symmetrically as both the
encoding-speed and the decoding-speed option. -/
theorem speed_setting_global_and_symmetric (codec : Codec)
    (st : ModuleState) (v n : List Vec3) (f : List Tri)
    (hf : f ≠ []) (hmax : maxFaceIndex f < v.length)
    (hn : n.length = 0 ∨ n.length = v.length) :
    initModuleState.DRACO_SPEED = 0 ∧
    Event.codecEncode st.DRACO_SPEED st.DRACO_SPEED ∈
      (encode_faces_to_drc_bytes codec st v n f).2 ∧
    (∀ s1 s2 : Int,
      Event.codecEncode s1 s2 ∈ (encode_faces_to_drc_bytes codec st v n f).2 →
      s1 = st.DRACO_SPEED ∧ s2 = st.DRACO_SPEED) := by
  have hflen : f.length ≠ 0 := by simpa [List.length_eq_zero] using hf
  have hn' : ¬(n.length > 0 ∧ n.length ≠ v.length) := by
    rcases hn with h | h <;> omega
  rw [encode_reaches_codec codec st v n f hflen hmax hn']
  refine ⟨rfl, by simp, ?_⟩
  intro s1 s2 hmem
  simpa using hmem

/-- Witness for C8's amended statement at a concrete call with
DRACO_SPEED set to 3. -/
theorem speed_setting_global_and_symmetric_witness :
    (([(0, 0, 0)] : List Tri) ≠ [] ∧
     maxFaceIndex [(0, 0, 0)] < ([(0, 0, 0)] : List Vec3).length ∧
     (([] : List Vec3).length = 0 ∨
      ([] : List Vec3).length = ([(0, 0, 0)] : List Vec3).length)) ∧
    (initModuleState.DRACO_SPEED = 0 ∧
     Event.codecEncode (3 : Int) (3 : Int) ∈
       (encode_faces_to_drc_bytes trivialCodec { DRACO_SPEED := 3 }
          [(0, 0, 0)] [] [(0, 0, 0)]).2 ∧
     (∀ s1 s2 : Int,
       Event.codecEncode s1 s2 ∈
         (encode_faces_to_drc_bytes trivialCodec { DRACO_SPEED := 3 }
            [(0, 0, 0)] [] [(0, 0, 0)]).2 →
       s1 = (3 : Int) ∧ s2 = (3 : Int))) :=
  ⟨⟨by decide, by decide, by decide⟩,
   speed_setting_global_and_symmetric trivialCodec { DRACO_SPEED := 3 }
     [(0, 0, 0)] [] [(0, 0, 0)] (by decide) (by decide) (by decide)⟩

/-- A codec whose encode entry point reports failure while leaving the
partial buffer [7] behind. -/
def failingCodec : Codec :=
  { encodeMeshToBuffer := fun _ _ _ => ({ ok := false }, [7])
  , getEncodedGeometryType := fun _ => GeometryType.triangularMesh
  , decodeMeshFromBuffer := fun _ => none }

/-- C9: pydraco.hpp line 141 discards the draco::Status returned by
EncodeMeshToBuffer.  With a codec that reports failure on a structurally
valid one-triangle mesh, encode still returns success, handing the
partial buffer contents to the caller instead of raising an error. -/
theorem encode_ignores_codec_status :
    (failingCodec.encodeMeshToBuffer 0 0
       (((buildMesh [(0, 0, 0)] [] [(0, 0, 0)]).deduplicateAttributeValues).deduplicatePointIds)).1.ok
      = false ∧
    (encode_faces_to_drc_bytes failingCodec initModuleState
       [(0, 0, 0)] [] [(0, 0, 0)]).1 = Except.ok [7] :=
  ⟨rfl, rfl⟩

theorem extractPointsAux_ok_spec (att : PointAttribute) (mkErr : Nat → Err) :
    ∀ (n s : Nat) (l : List Vec3),
      extractPointsAux att mkErr s n = Except.ok l →
      l.length = n ∧ ∀ i, i < n → l[i]? = att.resolve (s + i) := by
  intro n
  induction n with
  | zero =>
    intro s l h
    simp only [extractPointsAux, Except.ok.injEq] at h
    subst h
    exact ⟨rfl, fun i hi => absurd hi (Nat.not_lt_zero i)⟩
  | succ n ih =>
    intro s l h
    cases hr : att.resolve s with
    | none => simp [extractPointsAux, hr] at h
    | some v =>
      cases haux : extractPointsAux att mkErr (s + 1) n with
      | error e => simp [extractPointsAux, hr, haux] at h
      | ok rest =>
        simp only [extractPointsAux, hr, haux, Except.ok.injEq] at h
        subst h
        obtain ⟨hlen, hspec⟩ := ih (s + 1) rest haux
        refine ⟨by simp [hlen], ?_⟩
        intro i hi
        cases i with
        | zero => simpa [hr] using rfl
        | succ j =>
          have hj : j < n := by omega
          have := hspec j hj
          rw [show s + (j + 1) = (s + 1) + j by omega]
          simpa using this

theorem extractPointsAux_eq_ok (att : PointAttribute) (mkErr : Nat → Err) :
    ∀ (ws : List Vec3) (s : Nat),
      (∀ i, i < ws.length → att.resolve (s + i) = ws[i]?) →
      extractPointsAux att mkErr s ws.length = Except.ok ws := by
  intro ws
  induction ws with
  | nil => intro s _; rfl
  | cons w tl ih =>
    intro s h
    have h0 : att.resolve s = some w := by
      have := h 0 (by simp)
      simpa using this
    have htl : ∀ i, i < tl.length → att.resolve ((s + 1) + i) = tl[i]? := by
      intro i hi
      have := h (i + 1) (by simp; omega)
      rw [show s + (i + 1) = (s + 1) + i by omega] at this
      simpa using this
    have hrec := ih (s + 1) htl
    show extractPointsAux att mkErr s (tl.length + 1) = Except.ok (w :: tl)
    simp [extractPointsAux, h0, hrec]

theorem extractPoints_ok_spec (att : PointAttribute) (mkErr : Nat → Err)
    (count : Nat) (l : List Vec3)
    (h : extractPoints att mkErr count = Except.ok l) :
    l.length = count ∧ ∀ i, i < count → l[i]? = att.resolve i := by
  obtain ⟨hlen, hspec⟩ := extractPointsAux_ok_spec att mkErr count 0 l h
  exact ⟨hlen, fun i hi => by simpa using hspec i hi⟩

theorem extractPoints_identity (w : List Vec3) (mkErr : Nat → Err) :
    extractPoints { values := w, indexMap := List.range w.length } mkErr w.length =
      Except.ok w := by
  apply extractPointsAux_eq_ok
  intro i hi
  simp [PointAttribute.resolve, List.getElem?_range hi]

/-- C6: on a decode call that succeeds, if the deduplicated decoded mesh
carries a normal attribute then the returned normal array has length
equal to the mesh's point count (not the attribute's backing value-array
size), each entry being the resolution of its point index through the
attribute's index-mapping table; if no normal attribute is present the
returned normal array is empty. -/
theorem decode_normal_extraction (codec : Codec) (b : Bytes) (m0 m : Mesh)
    (res : DecodeResult) (trace : List Event)
    (hb : b ≠ [])
    (hgeom : codec.getEncodedGeometryType b = GeometryType.triangularMesh)
    (hdec : codec.decodeMeshFromBuffer b = some m0)
    (hm : m = (m0.deduplicateAttributeValues).deduplicatePointIds)
    (hres : decode_drc_bytes_to_faces codec b = (Except.ok res, trace)) :
    (m.norm = none → res.normals = []) ∧
    ∀ att, m.norm = some att →
      res.normals.length = m.num_points ∧
      ∀ i, i < m.num_points → res.normals[i]? = att.resolve i := by
  have hpair := (decode_after_mesh codec b m0 hb hgeom hdec).symm.trans hres
  have hcore : decodeCore ((m0.deduplicateAttributeValues).deduplicatePointIds) =
      Except.ok res := congrArg Prod.fst hpair
  rw [← hm] at hcore
  unfold decodeCore at hcore
  cases hpos : m.pos with
  | none => rw [hpos] at hcore; exact absurd hcore (by simp)
  | some vertex_att =>
    rw [hpos] at hcore
    simp only at hcore
    cases hev : extractPoints vertex_att Err.vertexReadError m.num_points with
    | error e => rw [hev] at hcore; exact absurd hcore (by simp)
    | ok vertices =>
      rw [hev] at hcore
      simp only at hcore
      cases hn : m.norm with
      | none =>
        rw [hn] at hcore
        simp only [Except.ok.injEq] at hcore
        subst hcore
        exact ⟨fun _ => rfl, fun att hatt => absurd hatt (by simp)⟩
      | some normal_att =>
        rw [hn] at hcore
        simp only at hcore
        cases hen : extractPoints normal_att Err.normalReadError m.num_points with
        | error e => rw [hen] at hcore; exact absurd hcore (by simp)
        | ok normals =>
          rw [hen] at hcore
          simp only [Except.ok.injEq] at hcore
          subst hcore
          refine ⟨fun hnone => absurd hnone (by simp), ?_⟩
          intro att hatt
          obtain rfl : normal_att = att := Option.some.inj hatt
          exact extractPoints_ok_spec normal_att Err.normalReadError
            m.num_points normals hen

/-- A codec whose decode entry point yields a one-point mesh carrying a
normal attribute. -/
def normalMeshCodec : Codec :=
  { encodeMeshToBuffer := fun _ _ _ => ({ ok := true }, [1])
  , getEncodedGeometryType := fun _ => GeometryType.triangularMesh
  , decodeMeshFromBuffer := fun _ => some
      { num_points := 1
      , pos := some { values := [(1, 2, 3)], indexMap := [0] }
      , norm := some { values := [(9, 9, 9)], indexMap := [0] }
      , faces := [(0, 0, 0)] } }

/-- Witness for C6 at a concrete decoded mesh with a normal
attribute. -/
theorem decode_normal_extraction_witness :
    (([5] : Bytes) ≠ [] ∧
     normalMeshCodec.getEncodedGeometryType [5] = GeometryType.triangularMesh ∧
     decode_drc_bytes_to_faces normalMeshCodec [5] =
       (Except.ok { vertices := [(1, 2, 3)]
                  , normals := [(9, 9, 9)]
                  , faces := [(0, 0, 0)] },
        [Event.codecGetGeometryType, Event.codecDecodeMesh,
         Event.dedupAttributeValues, Event.dedupPointIds, Event.extract])) ∧
    (([(9, 9, 9)] : List Vec3).length = 1 ∧
     ∀ i, i < 1 →
       (([(9, 9, 9)] : List Vec3))[i]? =
         PointAttribute.resolve { values := [(9, 9, 9)], indexMap := [0] } i) :=
  ⟨⟨by decide, rfl, rfl⟩,
   (decode_normal_extraction normalMeshCodec [5]
      { num_points := 1
      , pos := some { values := [(1, 2, 3)], indexMap := [0] }
      , norm := some { values := [(9, 9, 9)], indexMap := [0] }
      , faces := [(0, 0, 0)] }
      { num_points := 1
      , pos := some { values := [(1, 2, 3)], indexMap := [0] }
      , norm := some { values := [(9, 9, 9)], indexMap := [0] }
      , faces := [(0, 0, 0)] }
      { vertices := [(1, 2, 3)], normals := [(9, 9, 9)], faces := [(0, 0, 0)] }
      [Event.codecGetGeometryType, Event.codecDecodeMesh,
       Event.dedupAttributeValues, Event.dedupPointIds, Event.extract]
      (by decide) rfl rfl (by decide) rfl).2
     { values := [(9, 9, 9)], indexMap := [0] } rfl⟩

/-! Facts about idxOf. -/

theorem idxOf_lt_length {α : Type} [DecidableEq α] {a : α} :
    ∀ {l : List α}, a ∈ l → idxOf a l < l.length := by
  intro l
  induction l with
  | nil => intro h; cases h
  | cons b t ih =>
    intro h
    by_cases hab : a = b
    · simp [idxOf, hab]
    · have hmem : a ∈ t := by
        rcases List.mem_cons.mp h with h1 | h1
        · exact absurd h1 hab
        · exact h1
      have := ih hmem
      simp [idxOf, hab]
      omega

theorem getElem?_idxOf {α : Type} [DecidableEq α] {a : α} :
    ∀ {l : List α}, a ∈ l → l[idxOf a l]? = some a := by
  intro l
  induction l with
  | nil => intro h; cases h
  | cons b t ih =>
    intro h
    by_cases hab : a = b
    · simp [idxOf, hab]
    · have hmem : a ∈ t := by
        rcases List.mem_cons.mp h with h1 | h1
        · exact absurd h1 hab
        · exact h1
      simpa [idxOf, hab] using ih hmem

theorem idxOf_getElem?_of_nodup {α : Type} [DecidableEq α] :
    ∀ {l : List α}, l.Nodup → ∀ {i : Nat} {a : α}, l[i]? = some a → idxOf a l = i := by
  intro l
  induction l with
  | nil => intro _ i a h; simp at h
  | cons b t ih =>
    intro hnd i a h
    obtain ⟨hb, ht⟩ := List.nodup_cons.mp hnd
    cases i with
    | zero =>
      simp only [List.getElem?_cons_zero, Option.some.injEq] at h
      simp [idxOf, h]
    | succ j =>
      simp only [List.getElem?_cons_succ] at h
      have hmem : a ∈ t := by
        rw [List.getElem?_eq_some] at h
        obtain ⟨hj, rfl⟩ := h
        exact List.getElem_mem hj
      have hab : a ≠ b := fun hc => hb (hc ▸ hmem)
      simp [idxOf, hab, ih ht h]

/-! The shape of the mesh produced by building from (vertices, normals
= [], faces) and deduplicating, expressed through the following
auxiliary functions. -/

/-- The attribute-value combination carried by a point whose position is
x, in a mesh with no normal attribute. -/
def comboOf (x : Vec3) : Option Vec3 × Option Vec3 := (some x, none)

/-- The merged point combinations of a no-normals mesh built from v. -/
def uniqCombos (v : List Vec3) : List (Option Vec3 × Option Vec3) :=
  (v.map comboOf).dedup

/-- The position component stored for a merged point. -/
def extractPos (c : Option Vec3 × Option Vec3) : Vec3 := c.1.getD (0, 0, 0)

/-- Positions of the deduplicated mesh, one per merged point. -/
def dedupedPositions (v : List Vec3) : List Vec3 :=
  (uniqCombos v).map extractPos

/-- The old-point to merged-point remapping of the deduplicated mesh. -/
def buildRemap (v : List Vec3) (p : Nat) : Nat :=
  idxOf ((v[p]?, none) : Option Vec3 × Option Vec3) (uniqCombos v)

theorem buildMesh_no_normals (v : List Vec3) (f : List Tri) :
    buildMesh v [] f =
      { num_points := v.length
      , pos := some { values := v, indexMap := List.range v.length }
      , norm := none
      , faces := f } := rfl

theorem resolve_dedupValuesAtt_identity (v : List Vec3) (p : Nat) :
    (dedupValuesAtt { values := v, indexMap := List.range v.length }).resolve p =
      v[p]? := by
  unfold dedupValuesAtt PointAttribute.resolve
  by_cases hp : p < v.length
  · have hv : v[p]? = some v[p] := List.getElem?_eq_getElem hp
    simp only [List.getElem?_map, List.getElem?_range hp, Option.map_some',
      Option.some_bind, hv]
    exact getElem?_idxOf (List.mem_dedup.mpr (List.getElem_mem hp))
  · have h1 : ((List.range v.length).map (fun vi =>
        match v[vi]? with
        | some w => idxOf w v.dedup
        | none => vi))[p]? = none :=
      List.getElem?_eq_none (by simpa using Nat.le_of_not_lt hp)
    have h2 : v[p]? = none := List.getElem?_eq_none (Nat.le_of_not_lt hp)
    simp [h1, h2]

theorem pointCombo_built (v : List Vec3) (f : List Tri) (p : Nat) :
    ((buildMesh v [] f).deduplicateAttributeValues).pointCombo p =
      ((v[p]?, none) : Option Vec3 × Option Vec3) := by
  rw [buildMesh_no_normals]
  unfold Mesh.deduplicateAttributeValues Mesh.pointCombo
  simp [resolve_dedupValuesAtt_identity]

theorem combos_built (v : List Vec3) (f : List Tri) :
    (List.range v.length).map
        (((buildMesh v [] f).deduplicateAttributeValues).pointCombo) =
      v.map comboOf := by
  apply List.ext_getElem?
  intro i
  rw [List.getElem?_map, List.getElem?_map]
  by_cases hi : i < v.length
  · rw [List.getElem?_range hi, List.getElem?_eq_getElem hi]
    simp [pointCombo_built, comboOf, List.getElem?_eq_getElem hi]
  · rw [List.getElem?_eq_none (by simpa using Nat.le_of_not_lt hi),
      List.getElem?_eq_none (Nat.le_of_not_lt hi)]
    rfl

theorem dedup2_build (v : List Vec3) (f : List Tri) :
    ((buildMesh v [] f).deduplicateAttributeValues).deduplicatePointIds =
      { num_points := (uniqCombos v).length
      , pos := some { values := dedupedPositions v
                    , indexMap := List.range (uniqCombos v).length }
      , norm := none
      , faces := f.map (fun t =>
          (buildRemap v t.1, buildRemap v t.2.1, buildRemap v t.2.2)) } := by
  unfold Mesh.deduplicatePointIds
  have hnp : ((buildMesh v [] f).deduplicateAttributeValues).num_points = v.length := rfl
  have hpos : ((buildMesh v [] f).deduplicateAttributeValues).pos =
      some (dedupValuesAtt { values := v, indexMap := List.range v.length }) := rfl
  have hnorm : ((buildMesh v [] f).deduplicateAttributeValues).norm = none := rfl
  have hfaces : ((buildMesh v [] f).deduplicateAttributeValues).faces = f := rfl
  rw [hnp, combos_built v f]
  simp only [hpos, hnorm, hfaces, Option.map_some', Option.map_none', Mesh.mk.injEq]
  refine ⟨rfl, rfl, trivial, ?_⟩
  apply List.map_congr_left
  intro t ht
  rw [pointCombo_built, pointCombo_built, pointCombo_built]
  rfl

theorem dedupedPositions_at_remap (v : List Vec3) (p : Nat) (hp : p < v.length) :
    (dedupedPositions v)[buildRemap v p]? = v[p]? := by
  have hv : v[p]? = some v[p] := List.getElem?_eq_getElem hp
  have hco : ((v[p]?, none) : Option Vec3 × Option Vec3) = comboOf v[p] := by
    rw [hv]; rfl
  have hmem : comboOf v[p] ∈ uniqCombos v :=
    List.mem_dedup.mpr (List.mem_map_of_mem _ (List.getElem_mem hp))
  unfold dedupedPositions buildRemap
  rw [hco, List.getElem?_map, getElem?_idxOf hmem, hv]
  rfl

theorem mem_uniqCombos_shape {v : List Vec3} {c : Option Vec3 × Option Vec3}
    (h : c ∈ uniqCombos v) : ∃ y ∈ v, c = comboOf y := by
  obtain ⟨y, hy, rfl⟩ := List.mem_map.mp (List.mem_dedup.mp h)
  exact ⟨y, hy, rfl⟩

theorem mem_of_mem_dedupedPositions {v : List Vec3} {x : Vec3}
    (h : x ∈ dedupedPositions v) : x ∈ v := by
  obtain ⟨c, hc, rfl⟩ := List.mem_map.mp h
  obtain ⟨y, hy, rfl⟩ := List.mem_map.mp (List.mem_dedup.mp hc)
  simpa [extractPos, comboOf] using hy

theorem nodup_dedupedPositions (v : List Vec3) : (dedupedPositions v).Nodup := by
  refine List.Nodup.map_on ?_ (List.nodup_dedup _)
  intro x hx y hy hxy
  obtain ⟨a, _, rfl⟩ := mem_uniqCombos_shape hx
  obtain ⟨b, _, rfl⟩ := mem_uniqCombos_shape hy
  simp only [extractPos, comboOf, Option.getD_some] at hxy
  rw [hxy]

theorem length_dedupedPositions (v : List Vec3) :
    (dedupedPositions v).length = (uniqCombos v).length :=
  List.length_map _ _

theorem resolve_identity_att (w : List Vec3) (p : Nat) :
    PointAttribute.resolve { values := w, indexMap := List.range w.length } p =
      w[p]? := by
  unfold PointAttribute.resolve
  by_cases hp : p < w.length
  · rw [List.getElem?_range hp]
    rfl
  · have h1 : (List.range w.length)[p]? = none :=
      List.getElem?_eq_none (by simpa using Nat.le_of_not_lt hp)
    have h2 : w[p]? = none := List.getElem?_eq_none (Nat.le_of_not_lt hp)
    rw [h1, h2]
    rfl

/-- The mesh shape produced by deduplicating a no-normals built mesh:
merged points carrying the deduplicated positions with an identity
mapping, and a given face list. -/
def dedupedMesh (v : List Vec3) (fs : List Tri) : Mesh :=
  { num_points := (uniqCombos v).length
  , pos := some { values := dedupedPositions v
                , indexMap := List.range (uniqCombos v).length }
  , norm := none
  , faces := fs }

theorem dedupValuesAtt_fixed_of_nodup (w : List Vec3) (hw : w.Nodup) :
    dedupValuesAtt { values := w, indexMap := List.range w.length } =
      { values := w, indexMap := List.range w.length } := by
  unfold dedupValuesAtt
  have hd : w.dedup = w := List.dedup_eq_self.mpr hw
  simp only [hd, PointAttribute.mk.injEq]
  refine ⟨trivial, ?_⟩
  apply List.ext_getElem?
  intro i
  rw [List.getElem?_map]
  by_cases hi : i < w.length
  · have hv : w[i]? = some w[i] := List.getElem?_eq_getElem hi
    rw [List.getElem?_range hi]
    simp only [Option.map_some', hv]
    rw [idxOf_getElem?_of_nodup hw hv]
  · have h1 : (List.range w.length)[i]? = none :=
      List.getElem?_eq_none (by simpa using Nat.le_of_not_lt hi)
    rw [h1]
    rfl

theorem dedupedMesh_dedupValues_fixed (v : List Vec3) (fs : List Tri) :
    (dedupedMesh v fs).deduplicateAttributeValues = dedupedMesh v fs := by
  unfold dedupedMesh Mesh.deduplicateAttributeValues
  simp only [Option.map_some', Option.map_none', Mesh.mk.injEq]
  refine ⟨trivial, ?_, trivial, trivial⟩
  rw [show List.range (uniqCombos v).length =
        List.range (dedupedPositions v).length by rw [length_dedupedPositions]]
  exact congrArg some (dedupValuesAtt_fixed_of_nodup _ (nodup_dedupedPositions v))

theorem pointCombo_dedupedMesh (v : List Vec3) (fs : List Tri) (p : Nat) :
    (dedupedMesh v fs).pointCombo p =
      (((dedupedPositions v)[p]? : Option Vec3), (none : Option Vec3)) := by
  unfold dedupedMesh Mesh.pointCombo
  simp only [Option.some_bind, Option.none_bind]
  rw [show List.range (uniqCombos v).length =
        List.range (dedupedPositions v).length by rw [length_dedupedPositions]]
  rw [resolve_identity_att]

theorem combos_dedupedMesh (v : List Vec3) (fs : List Tri) :
    (List.range (uniqCombos v).length).map ((dedupedMesh v fs).pointCombo) =
      uniqCombos v := by
  apply List.ext_getElem?
  intro i
  rw [List.getElem?_map]
  by_cases hi : i < (uniqCombos v).length
  · rw [List.getElem?_range hi, Option.map_some']
    rw [pointCombo_dedupedMesh]
    have hu : (uniqCombos v)[i]? = some ((uniqCombos v)[i]) :=
      List.getElem?_eq_getElem hi
    obtain ⟨y, _, hshape⟩ := mem_uniqCombos_shape (List.getElem_mem hi)
    have hw : (dedupedPositions v)[i]? = some (extractPos ((uniqCombos v)[i])) := by
      unfold dedupedPositions
      rw [List.getElem?_map, hu]
      rfl
    rw [hw, hu, hshape]
    rfl
  · have h1 : (List.range (uniqCombos v).length)[i]? = none :=
      List.getElem?_eq_none (by simpa using Nat.le_of_not_lt hi)
    have h2 : (uniqCombos v)[i]? = none :=
      List.getElem?_eq_none (Nat.le_of_not_lt hi)
    rw [h1, h2]
    rfl

theorem dedupedMesh_dedupPointIds_fixed (v : List Vec3) (fs : List Tri)
    (hfs : ∀ t ∈ fs, t.1 < (uniqCombos v).length ∧
      t.2.1 < (uniqCombos v).length ∧ t.2.2 < (uniqCombos v).length) :
    (dedupedMesh v fs).deduplicatePointIds = dedupedMesh v fs := by
  unfold Mesh.deduplicatePointIds
  rw [show (dedupedMesh v fs).num_points = (uniqCombos v).length from rfl,
    combos_dedupedMesh v fs,
    (List.dedup_eq_self.mpr (List.nodup_dedup (v.map comboOf)) :
      (uniqCombos v).dedup = uniqCombos v),
    show (dedupedMesh v fs).faces = fs from rfl]
  have hremap : ∀ a, a < (uniqCombos v).length →
      idxOf ((dedupedMesh v fs).pointCombo a) (uniqCombos v) = a := by
    intro a ha
    have hu : (uniqCombos v)[a]? = some ((uniqCombos v)[a]) :=
      List.getElem?_eq_getElem ha
    obtain ⟨y, _, hshape⟩ := mem_uniqCombos_shape (List.getElem_mem ha)
    have hw : (dedupedPositions v)[a]? = some (extractPos ((uniqCombos v)[a])) := by
      unfold dedupedPositions
      rw [List.getElem?_map, hu]
      rfl
    rw [pointCombo_dedupedMesh, hw,
      show ((some (extractPos ((uniqCombos v)[a])), none) :
          Option Vec3 × Option Vec3) = (uniqCombos v)[a] by rw [hshape]; rfl]
    exact idxOf_getElem?_of_nodup (List.nodup_dedup _) hu
  have hfix : ∀ t ∈ fs,
      ((idxOf ((dedupedMesh v fs).pointCombo t.1) (uniqCombos v),
        idxOf ((dedupedMesh v fs).pointCombo t.2.1) (uniqCombos v),
        idxOf ((dedupedMesh v fs).pointCombo t.2.2) (uniqCombos v)) : Tri) = t := by
    intro t ht
    obtain ⟨h1, h2, h3⟩ := hfs t ht
    obtain ⟨a, b, c⟩ := t
    simp only at h1 h2 h3 ⊢
    rw [hremap a h1, hremap b h2, hremap c h3]
  have hfix2 : fs.map (fun t =>
      (idxOf ((dedupedMesh v fs).pointCombo t.1) (uniqCombos v),
       idxOf ((dedupedMesh v fs).pointCombo t.2.1) (uniqCombos v),
       idxOf ((dedupedMesh v fs).pointCombo t.2.2) (uniqCombos v))) = fs :=
    calc fs.map (fun t =>
        (idxOf ((dedupedMesh v fs).pointCombo t.1) (uniqCombos v),
         idxOf ((dedupedMesh v fs).pointCombo t.2.1) (uniqCombos v),
         idxOf ((dedupedMesh v fs).pointCombo t.2.2) (uniqCombos v))) =
        fs.map (fun t => t) := List.map_congr_left hfix
      _ = fs := List.map_id' fs
  rw [hfix2]
  simp only [dedupedMesh, Option.map_some', Option.map_none']
  rfl

theorem decodeCore_dedupedMesh (v : List Vec3) (fs : List Tri) :
    decodeCore (dedupedMesh v fs) =
      Except.ok { vertices := dedupedPositions v, normals := [], faces := fs } := by
  have hx : extractPoints
      { values := dedupedPositions v
      , indexMap := List.range (uniqCombos v).length }
      Err.vertexReadError (uniqCombos v).length = Except.ok (dedupedPositions v) := by
    rw [show List.range (uniqCombos v).length =
          List.range (dedupedPositions v).length by rw [length_dedupedPositions]]
    rw [show (uniqCombos v).length = (dedupedPositions v).length from
          (length_dedupedPositions v).symm]
    exact extractPoints_identity _ _
  unfold decodeCore dedupedMesh
  simp only [hx]

theorem le_maxFaceIndex {f : List Tri} {t : Tri} (h : t ∈ f) :
    t.1 ≤ maxFaceIndex f ∧ t.2.1 ≤ maxFaceIndex f ∧ t.2.2 ≤ maxFaceIndex f := by
  induction f with
  | nil => cases h
  | cons s r ih =>
    rcases List.mem_cons.mp h with rfl | hmem
    · simp only [maxFaceIndex]
      omega
    · obtain ⟨h1, h2, h3⟩ := ih hmem
      simp only [maxFaceIndex]
      omega

theorem buildRemap_lt {v : List Vec3} {p : Nat} (hp : p < v.length) :
    buildRemap v p < (uniqCombos v).length := by
  have hv : v[p]? = some v[p] := List.getElem?_eq_getElem hp
  unfold buildRemap
  rw [show ((v[p]?, none) : Option Vec3 × Option Vec3) = comboOf v[p] by
    rw [hv]; rfl]
  exact idxOf_lt_length
    (List.mem_dedup.mpr (List.mem_map_of_mem _ (List.getElem_mem hp)))

/-- C1: for a valid no-normals input and any global speed setting, if
the codec faithfully round-trips the deduplicated mesh that encode hands
to it (returning a non-empty mesh-kind buffer that decodes back to that
mesh), then decode of the buffer produced by encode succeeds with an
empty normal array, vertex positions equal to the input up to the
point-merge remapping (every input vertex position is found at its
remapped index, and every output position is one of the input
positions), and faces preserved exactly up to the same remapping. -/
theorem decode_encode_roundtrip_no_normals
    (codec : Codec) (st : ModuleState) (v : List Vec3) (f : List Tri)
    (buf : Bytes)
    (hf : f ≠ []) (hmax : maxFaceIndex f < v.length)
    (hbuf : (encode_faces_to_drc_bytes codec st v [] f).1 = Except.ok buf)
    (hne : buf ≠ [])
    (hgeom : codec.getEncodedGeometryType buf = GeometryType.triangularMesh)
    (hdec : codec.decodeMeshFromBuffer buf =
      some (((buildMesh v [] f).deduplicateAttributeValues).deduplicatePointIds)) :
    ∃ (res : DecodeResult) (trace : List Event) (remap : Nat → Nat),
      decode_drc_bytes_to_faces codec buf = (Except.ok res, trace) ∧
      res.normals = [] ∧
      (∀ p, p < v.length → res.vertices[remap p]? = v[p]?) ∧
      res.faces = f.map (fun t => (remap t.1, remap t.2.1, remap t.2.2)) ∧
      (∀ x, x ∈ res.vertices → x ∈ v) := by
  rw [dedup2_build] at hdec
  have hdec' : codec.decodeMeshFromBuffer buf =
      some (dedupedMesh v (f.map (fun t =>
        (buildRemap v t.1, buildRemap v t.2.1, buildRemap v t.2.2)))) := hdec
  have hfs : ∀ t ∈ f.map (fun t =>
      (buildRemap v t.1, buildRemap v t.2.1, buildRemap v t.2.2)),
      t.1 < (uniqCombos v).length ∧ t.2.1 < (uniqCombos v).length ∧
      t.2.2 < (uniqCombos v).length := by
    intro t ht
    obtain ⟨s, hs, rfl⟩ := List.mem_map.mp ht
    obtain ⟨h1, h2, h3⟩ := le_maxFaceIndex hs
    exact ⟨buildRemap_lt (by omega), buildRemap_lt (by omega),
      buildRemap_lt (by omega)⟩
  have hq := decode_after_mesh codec buf _ hne hgeom hdec'
  rw [dedupedMesh_dedupValues_fixed, dedupedMesh_dedupPointIds_fixed v _ hfs,
    decodeCore_dedupedMesh] at hq
  refine ⟨_, _, buildRemap v, hq, rfl, ?_, rfl, ?_⟩
  · intro p hp
    exact dedupedPositions_at_remap v p hp
  · intro x hx
    exact mem_of_mem_dedupedPositions hx

/-- A codec that encodes every mesh to [1] and decodes every buffer to
the deduplicated mesh of the witness input below. -/
def roundTripCodec : Codec :=
  { encodeMeshToBuffer := fun _ _ _ => ({ ok := true }, [1])
  , getEncodedGeometryType := fun _ => GeometryType.triangularMesh
  , decodeMeshFromBuffer := fun _ => some
      { num_points := 2
      , pos := some { values := [(1, 2, 3), (4, 5, 6)], indexMap := [0, 1] }
      , norm := none
      , faces := [(0, 0, 1)] } }

/-- Witness for C1 on three vertices (the first two identical) and one
triangle, with a codec that faithfully returns the deduplicated
two-point mesh. -/
theorem decode_encode_roundtrip_no_normals_witness :
    (([(0, 1, 2)] : List Tri) ≠ [] ∧
     maxFaceIndex [(0, 1, 2)] <
       ([(1, 2, 3), (1, 2, 3), (4, 5, 6)] : List Vec3).length ∧
     (encode_faces_to_drc_bytes roundTripCodec initModuleState
        [(1, 2, 3), (1, 2, 3), (4, 5, 6)] [] [(0, 1, 2)]).1 = Except.ok [1] ∧
     ([1] : Bytes) ≠ [] ∧
     roundTripCodec.getEncodedGeometryType [1] = GeometryType.triangularMesh ∧
     roundTripCodec.decodeMeshFromBuffer [1] =
       some (((buildMesh [(1, 2, 3), (1, 2, 3), (4, 5, 6)] []
          [(0, 1, 2)]).deduplicateAttributeValues).deduplicatePointIds)) ∧
    (∃ (res : DecodeResult) (trace : List Event) (remap : Nat → Nat),
      decode_drc_bytes_to_faces roundTripCodec [1] = (Except.ok res, trace) ∧
      res.normals = [] ∧
      (∀ p, p < ([(1, 2, 3), (1, 2, 3), (4, 5, 6)] : List Vec3).length →
        res.vertices[remap p]? =
          (([(1, 2, 3), (1, 2, 3), (4, 5, 6)] : List Vec3))[p]?) ∧
      res.faces = ([(0, 1, 2)] : List Tri).map
        (fun t => (remap t.1, remap t.2.1, remap t.2.2)) ∧
      (∀ x, x ∈ res.vertices →
        x ∈ ([(1, 2, 3), (1, 2, 3), (4, 5, 6)] : List Vec3))) :=
  ⟨⟨by decide, by decide, rfl, by decide, rfl, by decide⟩,
   decode_encode_roundtrip_no_normals roundTripCodec initModuleState
     [(1, 2, 3), (1, 2, 3), (4, 5, 6)] [(0, 1, 2)] [1]
     (by decide) (by decide) rfl (by decide) rfl (by decide)⟩

end Pydraco
